import Mathlib

/-!
Verification development for a RAG (retrieval-augmented generation) service with
payment-gated job orchestration.

The development shallowly embeds the Python source:
* `src/rag/vector_store.py` — a faiss-backed vector store (`VectorStore.add`,
  `VectorStore.search`);
* `src/main.py` — the job orchestration layer (`start_job`,
  `handle_payment_status`, `get_status`) and the result post-processing of
  `execute_rag_task`.

External collaborators (the faiss library, the payment provider, the embedding
and generation models, Python's `json` module) are modelled as explicit
parameters or small faithful models; their outcomes are universally quantified
in the theorems.
-/

/-! ## Vector store (`src/rag/vector_store.py`)

Vectors are modelled as lists of integers (an exact stand-in for the float32
coordinates; only ordering by squared L2 distance matters to the claims).
-/

/-- The in-memory store: `self.index = faiss.IndexFlatL2(768)` holds the
vectors (modelled explicitly, in insertion order, together with the configured
dimension) and `self.chunks = []` the text fragments. -/
structure VectorStore where
  dim : Nat
  vectors : List (List Int)
  chunks : List String
deriving Repr, DecidableEq

/-- Model of `vector_store = VectorStore()` — fresh store, dimension 768. -/
def VectorStore.init : VectorStore := ⟨768, [], []⟩

/-- Squared Euclidean (L2) distance between two vectors of equal length,
as computed by `faiss.IndexFlatL2`. -/
def sqDist (u v : List Int) : Int :=
  ((u.zip v).map (fun p => (p.1 - p.2) ^ 2)).sum

/-- The comparison faiss's exact flat search orders results by: strictly
smaller squared distance first, ties broken by smaller insertion index. -/
def faissRel (vectors : List (List Int)) (q : List Int) (i j : Nat) : Prop :=
  sqDist q (vectors.getD i []) < sqDist q (vectors.getD j []) ∨
    (sqDist q (vectors.getD i []) = sqDist q (vectors.getD j []) ∧ i ≤ j)

instance (vectors : List (List Int)) (q : List Int) :
    DecidableRel (faissRel vectors q) := fun _ _ =>
  inferInstanceAs (Decidable (_ ∨ _))

/-- Model of the ranking performed by `faiss.IndexFlatL2.search`: all stored
indices, sorted by ascending squared L2 distance to the query, ties broken by
insertion order (earlier-inserted record first).  The relation is a total
order on distinct indices, so any correct sort produces this list. -/
def rankedIndices (vectors : List (List Int)) (q : List Int) : List Nat :=
  List.insertionSort (faissRel vectors q) (List.range vectors.length)

/-- Model of `self.index.search(query_emb, k)`'s label row: faiss always
returns exactly `k` labels, padding with `-1` when fewer than `k` records are
stored. -/
def faissIndices (vectors : List (List Int)) (q : List Int) (k : Nat) :
    List Int :=
  let ranked := (rankedIndices vectors q).map (Int.ofNat)
  ranked.take k ++ List.replicate (k - ranked.length) (-1)

/-- Python list indexing `l[i]` with an `Int` index: non-negative indices
count from the front, negative indices count from the back
(`l[-1]` is the last element). -/
def pyGet {α : Type} (l : List α) (i : Int) : Option α :=
  if 0 ≤ i then l.get? i.toNat
  else l.get? (l.length - (-i).toNat)

/-- Model of `VectorStore.add` (vector_store.py lines 10–13): `self.index.add(emb)`
asserts the configured dimension (raising, with no mutation, on mismatch),
then `self.chunks.append(chunk)`. -/
def VectorStore.add (s : VectorStore) (emb : List Int) (chunk : String) :
    Except String VectorStore :=
  if emb.length = s.dim then
    .ok { s with vectors := s.vectors ++ [emb], chunks := s.chunks ++ [chunk] }
  else
    .error "DimensionMismatch"

/-- Model of `VectorStore.search` (vector_store.py lines 15–25): returns `[]` on an
empty index; otherwise asks faiss for `k` labels (faiss asserts the query
dimension), keeps those `i` with `i < len(self.chunks)` — note `-1` passes
this test — and maps them through Python indexing `self.chunks[i]`. -/
def VectorStore.search (s : VectorStore) (q : List Int) (k : Nat) :
    Except String (List String) :=
  if s.vectors.length = 0 then .ok []
  else if q.length ≠ s.dim then .error "DimensionMismatch"
  else
    let indices := faissIndices s.vectors q k
    let valid := indices.filter (fun i => i < (s.chunks.length : Int))
    .ok (valid.filterMap (pyGet s.chunks))

/-- One `add` call as it appears inside an upload loop: a raised
`DimensionMismatch` propagates, leaving the store unmutated. -/
def applyAdd (s : VectorStore) (op : List Int × String) : VectorStore :=
  match s.add op.1 op.2 with
  | .ok s' => s'
  | .error _ => s

/-- A whole sequence of `add` calls starting from a given store. -/
def runAdds (s : VectorStore) (ops : List (List Int × String)) : VectorStore :=
  ops.foldl applyAdd s

/-! ## Job orchestration (`src/main.py`)

The in-memory state is the pair of module-level dicts `jobs` and
`payment_instances` (main.py lines 51–52).  Effects on external collaborators
(the payment provider, the RAG pipeline) are recorded as an event trace, and
the outcomes of external calls are explicit parameters of each operation.
-/

/-- One entry of the `jobs` dict (main.py lines 221–228).  `payment_status`
and `result` can be Python `None`, and the `error` key is absent until the
failure path writes it; both are modelled with `Option`. -/
structure Job where
  status : String
  payment_status : Option String
  blockchain_identifier : String
  input_data : List (String × String)
  result : Option String
  error : Option String
  identifier_from_purchaser : String
deriving Repr, DecidableEq

/-- The module-level mutable state: the `jobs` dict (insertion-ordered
association list) and the key set of the `payment_instances` dict (the payment
objects themselves are external; the code only branches on membership). -/
structure AppState where
  jobs : List (String × Job)
  payment_instances : List String
deriving Repr, DecidableEq

/-- Externally observable effects performed by the handlers. -/
inductive Event where
  | createPaymentRequest (purchaser : String)
  | startMonitoring (jobId : String)
  | taskRun (jobId : String)
  | completePayment (jobId : String) (paymentId : String)
  | stopMonitoring (jobId : String)
  | statusSet (jobId : String) (status : String)
deriving Repr, DecidableEq

/-- Read of `jobs[job_id]`: `None`-free lookup in the dict. -/
def lookupJob (jobs : List (String × Job)) (id : String) : Option Job :=
  (jobs.find? (fun p => p.1 = id)).map Prod.snd

/-- Python dict assignment `jobs[job_id] = j`: updates in place if the key is
present, otherwise appends (dicts preserve insertion order). -/
def setJob (jobs : List (String × Job)) (id : String) (j : Job) :
    List (String × Job) :=
  if jobs.any (fun p => p.1 = id) then
    jobs.map (fun p => if p.1 = id then (id, j) else p)
  else jobs ++ [(id, j)]

/-- Assignment `payment_instances[job_id] = payment`: key insertion. -/
def addInstance (l : List String) (id : String) : List String :=
  if l.contains id then l else l ++ [id]

/-- Deletion `del payment_instances[job_id]`: after it, the key is gone. -/
def removeInstance (l : List String) (id : String) : List String :=
  l.filter (fun x => x ≠ id)

/-- Outcome of `await execute_rag_task(...)`: the returned result string, or
the message of a raised exception. -/
inductive TaskOutcome where
  | ok (result : String)
  | err (msg : String)
deriving Repr, DecidableEq

/-- Outcome of `await payment.complete_payment(...)`. -/
inductive CompleteOutcome where
  | ok
  | err (msg : String)
deriving Repr, DecidableEq

/-- Result of one `handle_payment_status` invocation.  `raised` records an
exception escaping the handler, which happens only when `job_id` is not in
`jobs` (the `except` clause then re-raises `KeyError` itself). -/
structure HPSResult where
  state : AppState
  events : List Event
  raised : Bool
deriving Repr, DecidableEq

/-- The `except Exception` clause of `handle_payment_status` (main.py lines
295–303): sets `status = "failed"` and writes the `error` key (leaving
`result` and `payment_status` untouched), then stops and deletes the payment
instance if one is still registered. -/
def hpsExcept (s : AppState) (jobId msg : String) (evs : List Event) :
    HPSResult :=
  match lookupJob s.jobs jobId with
  | none => ⟨s, evs, true⟩
  | some j =>
    let j' := { j with status := "failed", error := some msg }
    let s' := { s with jobs := setJob s.jobs jobId j' }
    if s'.payment_instances.contains jobId then
      ⟨{ s' with payment_instances := removeInstance s'.payment_instances jobId },
        evs ++ [Event.statusSet jobId "failed", Event.stopMonitoring jobId],
        false⟩
    else
      ⟨s', evs ++ [Event.statusSet jobId "failed"], false⟩

/-- Model of `handle_payment_status(job_id, payment_id)` (main.py lines 269–303):
sets the job's status to `"running"`, runs the RAG task, calls
`payment_instances[job_id].complete_payment(...)` (a `KeyError` if the
instance is gone), on success writes status/payment_status/result and tears
the monitor down; any exception lands in `hpsExcept`. -/
def handlePaymentStatus (s : AppState) (jobId paymentId : String)
    (task : TaskOutcome) (comp : CompleteOutcome) : HPSResult :=
  match lookupJob s.jobs jobId with
  | none => ⟨s, [], true⟩
  | some job0 =>
    let job1 := { job0 with status := "running" }
    let s1 := { s with jobs := setJob s.jobs jobId job1 }
    let ev1 := [Event.statusSet jobId "running", Event.taskRun jobId]
    match task with
    | .err msg => hpsExcept s1 jobId msg ev1
    | .ok res =>
      if s1.payment_instances.contains jobId then
        let ev2 := ev1 ++ [Event.completePayment jobId paymentId]
        match comp with
        | .err msg => hpsExcept s1 jobId msg ev2
        | .ok =>
          let job2 := { job1 with
            status := "completed"
            payment_status := some "completed"
            result := some res }
          let s2 := { s1 with jobs := setJob s1.jobs jobId job2 }
          let s3 := { s2 with
            payment_instances := removeInstance s2.payment_instances jobId }
          ⟨s3, ev2 ++ [Event.statusSet jobId "completed",
                       Event.stopMonitoring jobId], false⟩
      else
        hpsExcept s1 jobId ("KeyError: " ++ jobId) ev1

/-- One confirmation event: the payment id it carries and the outcomes of the
two external calls the handler then makes. -/
structure ConfirmEvent where
  paymentId : String
  task : TaskOutcome
  comp : CompleteOutcome
deriving Repr, DecidableEq

/-- A sequence of confirmation events for one job, processed one after the
other, accumulating the event trace. -/
def runHandles : AppState → String → List ConfirmEvent → AppState × List Event
  | s, _, [] => (s, [])
  | s, jobId, e :: rest =>
    let r := handlePaymentStatus s jobId e.paymentId e.task e.comp
    let next := runHandles r.state jobId rest
    (next.1, r.events ++ next.2)

/-- Number of `complete_payment` invocations for a job in a trace. -/
def countComplete (jobId : String) (evs : List Event) : Nat :=
  (evs.filter (fun e =>
    match e with
    | .completePayment j _ => j = jobId
    | _ => false)).length

/-- Number of RAG-task runs for a job in a trace. -/
def countTaskRun (jobId : String) (evs : List Event) : Nat :=
  (evs.filter (fun e =>
    match e with
    | .taskRun j => j = jobId
    | _ => false)).length

/-- The sequence of values assigned to a job's `status` field in a trace. -/
def statusWrites (jobId : String) (evs : List Event) : List String :=
  evs.filterMap (fun e =>
    match e with
    | .statusSet j st => if j = jobId then some st else none
    | _ => none)

/-- The body of a `POST /start_job` request (main.py lines 65–67). -/
structure StartJobRequest where
  identifier_from_purchaser : String
  input_data : List (String × String)
deriving Repr, DecidableEq

/-- Membership test `"question" in data.input_data` — dict key membership. -/
def hasKeyStr (d : List (String × String)) (k : String) : Bool :=
  d.any (fun p => p.1 = k)

/-- The fields of `payment_request["data"]` used by `start_job`
(main.py lines 215–251). -/
structure PaymentRequestData where
  blockchainIdentifier : String
  submitResultTime : String
  unlockTime : String
  externalDisputeUnlockTime : String
  payByTime : String
deriving Repr, DecidableEq

/-- Outcome of `await payment.create_payment_request()`. -/
inductive CreatePaymentOutcome where
  | ok (d : PaymentRequestData)
  | err (msg : String)
deriving Repr, DecidableEq

/-- The fields of `start_job`'s success response that depend on the request
(the rest are environment pass-throughs). -/
structure StartJobResponse where
  job_id : String
  blockchainIdentifier : String
  identifierFromPurchaser : String
deriving Repr, DecidableEq

/-- Model of `start_job(data)` (main.py lines 176–264).  `newJobId` stands for the
fresh `uuid.uuid4()`.  The missing-`question` check raises
`HTTPException(400)`, which the handler's own `except Exception` clause
catches and re-raises as a 400 with a generic detail — before the `Payment`
object is built, before `create_payment_request` is awaited, and before the
job is stored.  A failure of `create_payment_request` is likewise re-raised
as a 400 with the job still unstored; a failure of
`start_status_monitoring` (modelled by `monitorOk = false`) becomes a 400
after the job and payment instance were already stored. -/
def startJob (s : AppState) (newJobId : String) (req : StartJobRequest)
    (cpr : CreatePaymentOutcome) (monitorOk : Bool) :
    AppState × List Event × Except Nat StartJobResponse :=
  if hasKeyStr req.input_data "question" = false then
    (s, [], .error 400)
  else
    match cpr with
    | .err _ => (s, [Event.createPaymentRequest req.identifier_from_purchaser],
                 .error 400)
    | .ok d =>
      let job : Job := {
        status := "awaiting_payment"
        payment_status := some "pending"
        blockchain_identifier := d.blockchainIdentifier
        input_data := req.input_data
        result := none
        error := none
        identifier_from_purchaser := req.identifier_from_purchaser }
      let s1 := { s with jobs := setJob s.jobs newJobId job }
      let s2 := { s1 with
        payment_instances := addInstance s1.payment_instances newJobId }
      if monitorOk then
        (s2, [Event.createPaymentRequest req.identifier_from_purchaser,
              Event.startMonitoring newJobId],
         .ok ⟨newJobId, d.blockchainIdentifier, req.identifier_from_purchaser⟩)
      else
        (s2, [Event.createPaymentRequest req.identifier_from_purchaser],
         .error 400)

/-- Outcome of `await payment_instances[job_id].check_payment_status()`
as consumed by `get_status`: on success the code reads
`status.get("data", {}).get("status")`, which may be Python `None`;
a `ValueError` and any other exception are caught separately. -/
inductive CheckOutcome where
  | ok (status : Option String)
  | valueError (msg : String)
  | otherError (msg : String)
deriving Repr, DecidableEq

/-- The JSON body returned by `GET /status` (main.py lines 334–339). -/
structure StatusResponse where
  job_id : String
  status : String
  payment_status : Option String
  result : Option String
deriving Repr, DecidableEq

/-- Model of `get_status(job_id)` (main.py lines 308–339): 404 for an unknown id;
otherwise, if a payment instance is still registered, refresh the stored
job's `payment_status` in place — degrading it to `"unknown"` on
`ValueError` and `"error"` on any other exception — and answer from the
(possibly updated) record.  The error value is the HTTP status code of the
raised `HTTPException`. -/
def getStatus (s : AppState) (jobId : String) (chk : CheckOutcome) :
    AppState × Except Nat StatusResponse :=
  match lookupJob s.jobs jobId with
  | none => (s, .error 404)
  | some job =>
    if s.payment_instances.contains jobId then
      let job' :=
        match chk with
        | .ok st => { job with payment_status := st }
        | .valueError _ => { job with payment_status := some "unknown" }
        | .otherError _ => { job with payment_status := some "error" }
      let s' := { s with jobs := setJob s.jobs jobId job' }
      (s', .ok ⟨jobId, job'.status, job'.payment_status, job'.result⟩)
    else
      (s, .ok ⟨jobId, job.status, job.payment_status, job.result⟩)

/-! ## Result post-processing of `execute_rag_task` (main.py lines 119–138)

The generation collaborator's output `response.text` is an arbitrary string.
The code first tries `json.loads` on it; `json.loads` itself is Python's
library, so its outcome is a parameter: `none` when parsing raises, `some j`
when it yields the JSON value `j`.  JSON values and `json.dumps` (with its
default ASCII-escaping of strings) are modelled below.
-/

mutual

/-- JSON values, as produced by `json.loads`.  Arrays and objects use
mutually inductive spines so that structural induction is available. -/
inductive Json where
  | null : Json
  | bool : Bool → Json
  | num : Int → Json
  | str : String → Json
  | arr : JsonList → Json
  | obj : JsonObject → Json

/-- Spine of a JSON array. -/
inductive JsonList where
  | nil : JsonList
  | cons : Json → JsonList → JsonList

/-- Spine of a JSON object: ordered key/value pairs. -/
inductive JsonObject where
  | nil : JsonObject
  | cons : String → Json → JsonObject → JsonObject

end

/-- Key membership in a JSON object (`"answer" in parsed`). -/
def JsonObject.hasKey : JsonObject → String → Bool
  | .nil, _ => false
  | .cons k _ rest, key => k = key || rest.hasKey key

/-- Condition `isinstance(parsed, dict) and "answer" in parsed`
(main.py line 123). -/
def isDictWithAnswer : Json → Bool
  | .obj kvs => kvs.hasKey "answer"
  | _ => false

/-- Decimal digit characters for number rendering. -/
def digitChar : Nat → Char
  | 0 => '0' | 1 => '1' | 2 => '2' | 3 => '3' | 4 => '4'
  | 5 => '5' | 6 => '6' | 7 => '7' | 8 => '8' | _ => '9'

/-- Decimal digits of a positive number, least significant first. -/
def natRevDigits : Nat → List Char
  | 0 => []
  | n + 1 => digitChar ((n + 1) % 10) :: natRevDigits ((n + 1) / 10)

/-- Decimal rendering of a natural number. -/
def natToDec (n : Nat) : List Char :=
  if n = 0 then ['0'] else (natRevDigits n).reverse

/-- Decimal rendering of an integer (the JSON number serialization). -/
def intToDec (n : Int) : List Char :=
  if n < 0 then '-' :: natToDec (-n).toNat else natToDec n.toNat

/-- Hexadecimal digit characters. -/
def hexDigitChar : Nat → Char
  | 0 => '0' | 1 => '1' | 2 => '2' | 3 => '3' | 4 => '4'
  | 5 => '5' | 6 => '6' | 7 => '7' | 8 => '8' | 9 => '9'
  | 10 => 'a' | 11 => 'b' | 12 => 'c' | 13 => 'd' | 14 => 'e' | _ => 'f'

/-- Four-hex-digit rendering used in `\uXXXX` escapes. -/
def hex4 (v : Nat) : List Char :=
  [hexDigitChar (v / 4096 % 16), hexDigitChar (v / 256 % 16),
   hexDigitChar (v / 16 % 16), hexDigitChar (v % 16)]

/-- Escaping of one character inside a JSON string literal as `json.dumps`
performs it with its default `ensure_ascii=True`: the two-character escapes
for quote, backslash and the common control characters, `\uXXXX` for the
remaining control characters and for every non-ASCII character (codepoints
beyond the basic multilingual plane are simplified to a single `\uXXXX`
rather than a surrogate pair — no claim depends on their exact spelling). -/
def escapeChar (c : Char) : List Char :=
  if c = '"' then ['\\', '"']
  else if c = '\\' then ['\\', '\\']
  else if c = '\n' then ['\\', 'n']
  else if c = '\r' then ['\\', 'r']
  else if c = '\t' then ['\\', 't']
  else if c.toNat = 8 then ['\\', 'b']
  else if c.toNat = 12 then ['\\', 'f']
  else if c.toNat < 32 ∨ 126 < c.toNat then '\\' :: 'u' :: hex4 c.toNat
  else [c]

/-- Serialization of a JSON string literal: quote, escaped chars, quote. -/
def dumpStringChars (s : String) : List Char :=
  '"' :: s.data.flatMap escapeChar ++ ['"']

mutual

/-- Serialization of a JSON value by `json.dumps` with default separators
(`", "` between items, `": "` after a key). -/
def Json.dumpChars : Json → List Char
  | .null => "null".data
  | .bool true => "true".data
  | .bool false => "false".data
  | .num n => intToDec n
  | .str s => dumpStringChars s
  | .arr xs => '[' :: xs.dumpChars ++ [']']
  | .obj kvs => "\x7b".data ++ kvs.dumpChars ++ "\x7d".data

/-- Serialization of array items. -/
def JsonList.dumpChars : JsonList → List Char
  | .nil => []
  | .cons j .nil => j.dumpChars
  | .cons j rest@(.cons _ _) => j.dumpChars ++ ", ".data ++ rest.dumpChars

/-- Serialization of object entries. -/
def JsonObject.dumpChars : JsonObject → List Char
  | .nil => []
  | .cons k v .nil => dumpStringChars k ++ ": ".data ++ v.dumpChars
  | .cons k v rest@(.cons _ _ _) =>
      dumpStringChars k ++ ": ".data ++ v.dumpChars ++ ", ".data ++
        rest.dumpChars

end

/-- Full model of `json.dumps` on a JSON value, as a string. -/
def dumps (j : Json) : String := ⟨j.dumpChars⟩

/-- Python `str.replace(old, new)` for a one-character needle, on the
character list of the string. -/
def replaceChar (cs : List Char) (c : Char) (r : List Char) : List Char :=
  cs.flatMap (fun ch => if ch = c then r else [ch])

/-- Python's whitespace set for `str.split()` with no argument. -/
def pyIsSpace (c : Char) : Bool :=
  c = ' ' || c = '\t' || c = '\n' || c = '\r' ||
    c.toNat = 11 || c.toNat = 12

/-- Python `str.split()` with no argument: maximal runs of non-whitespace
characters, with no empty pieces. -/
def pyWords : List Char → List (List Char)
  | [] => []
  | c :: cs =>
    if pyIsSpace c then pyWords cs
    else (c :: cs.takeWhile (fun ch => !pyIsSpace ch)) ::
      pyWords (cs.dropWhile (fun ch => !pyIsSpace ch))
termination_by cs => cs.length
decreasing_by
  · simp
  · simpa using Nat.lt_succ_of_le (List.dropWhile_sublist _).length_le

/-- Python `' '.join(words)`: the pieces separated by single spaces. -/
def joinSpace : List (List Char) → List Char
  | [] => []
  | [w] => w
  | w :: ws@(_ :: _) => w ++ ' ' :: joinSpace ws

/-- The fallback sanitization of `execute_rag_task` (main.py lines 129–136):
replace `'\n'` and `'\r'` by spaces, delete `'*'` and the bullet character,
replace `'-'` by a space and the rupee sign by `" ruppees"`, then collapse
whitespace via `' '.join(ans.split())`. -/
def sanitizeAnswer (ans : List Char) : List Char :=
  let a1 := replaceChar ans '\n' [' ']
  let a2 := replaceChar a1 '\r' [' ']
  let a3 := replaceChar a2 '*' []
  let a4 := replaceChar a3 '•' []
  let a5 := replaceChar a4 '-' [' ']
  let a6 := replaceChar a5 '₹' " ruppees".data
  joinSpace (pyWords a6)

/-- The result string `execute_rag_task` returns, given the outcome `parsed`
of `json.loads(response.text)` and the raw text (main.py lines 119–138): a
successfully parsed dict containing `"answer"` is re-serialized as-is;
otherwise (parse failure, or a parse not of that shape) the sanitized text is
wrapped as `json.dumps({"answer": ans})`. -/
def ragResult (parsed : Option Json) (text : String) : String :=
  match parsed with
  | some j =>
    if isDictWithAnswer j then dumps j
    else dumps (.obj (.cons "answer" (.str ⟨sanitizeAnswer text.data⟩) .nil))
  | none =>
    dumps (.obj (.cons "answer" (.str ⟨sanitizeAnswer text.data⟩) .nil))

/-! ## Derived observables used in the statements -/

/-- The `valid_indices` list computed by `VectorStore.search`
(vector_store.py line 22); the returned fragments correspond to it
position by position. -/
def searchSelectedIndices (s : VectorStore) (q : List Int) (k : Nat) :
    List Int :=
  (faissIndices s.vectors q k).filter (fun i => i < (s.chunks.length : Int))

/-- The squared L2 distances, record by record, of the fragments a `search`
call returns (via the positional correspondence with
`searchSelectedIndices`). -/
def resultDistances (s : VectorStore) (q : List Int) (k : Nat) : List Int :=
  (searchSelectedIndices s q k).filterMap
    (fun i => (pyGet s.vectors i).map (sqDist q))

/-- The fallback result of `execute_rag_task`:
`json.dumps({"answer": sanitized})`. -/
def ragFallback (text : String) : String :=
  dumps (.obj (.cons "answer" (.str ⟨sanitizeAnswer text.data⟩) .nil))

/-! ## A concrete duplicate-confirmation scenario

The state right after `start_job` stored a job (main.py lines 221–234),
followed by two invocations of `handle_payment_status` for the same job with
a successfully executing task and a successful `complete_payment` call — the
second invocation modelling a duplicate confirmation event arriving after the
first reached its terminal outcome. -/

/-- A freshly stored job, awaiting payment. -/
def dupJob : Job where
  status := "awaiting_payment"
  payment_status := some "pending"
  blockchain_identifier := "bc1"
  input_data := [("question", "What is the capital of France?")]
  result := none
  error := none
  identifier_from_purchaser := "p1"

/-- State after `start_job`: the job stored, its payment instance
registered. -/
def dupState : AppState where
  jobs := [("job1", dupJob)]
  payment_instances := ["job1"]

/-- First confirmation event: task succeeds, `complete_payment` succeeds. -/
def dupRun1 : HPSResult :=
  handlePaymentStatus dupState "job1" "bc1" (.ok "res") .ok

/-- Duplicate confirmation event, processed after the first finished. -/
def dupRun2 : HPSResult :=
  handlePaymentStatus dupRun1.state "job1" "bc1" (.ok "res") .ok

/-! ## Helper lemmas on the dict model -/

theorem find?_map_set (jobs : List (String × Job)) (id : String) (j : Job)
    (h : jobs.any (fun p => p.1 = id) = true) :
    ((jobs.map (fun p => if p.1 = id then (id, j) else p)).find?
      (fun p => p.1 = id)) = some (id, j) := by
  induction jobs with
  | nil => simp at h
  | cons p rest ih =>
    by_cases hp : p.1 = id
    · simp only [List.map_cons, if_pos hp]
      exact List.find?_cons_of_pos _ (by simp)
    · have h' : rest.any (fun p => p.1 = id) = true := by
        simp only [List.any_cons] at h
        rcases Bool.or_eq_true_iff.mp h with h1 | h1
        · exact absurd (of_decide_eq_true h1) hp
        · exact h1
      simp only [List.map_cons, if_neg hp]
      rw [List.find?_cons_of_neg _ (by simpa using hp)]
      exact ih h'

theorem lookupJob_setJob_self (jobs : List (String × Job)) (id : String)
    (j : Job) : lookupJob (setJob jobs id j) id = some j := by
  unfold lookupJob setJob
  by_cases h : jobs.any (fun p => p.1 = id) = true
  · rw [if_pos h, find?_map_set jobs id j h]
    rfl
  · rw [if_neg h]
    have hnone : jobs.find? (fun p => p.1 = id) = none := by
      rw [List.find?_eq_none]
      intro p hp
      by_contra hc
      exact h (List.any_eq_true.mpr ⟨p, hp, hc⟩)
    rw [List.find?_append, hnone]
    simp only [Option.none_or]
    rw [List.find?_cons_of_pos _ (by simp)]
    rfl

theorem lookupJob_setJob_ne (jobs : List (String × Job)) (id id' : String)
    (j : Job) (hne : id' ≠ id) :
    lookupJob (setJob jobs id j) id' = lookupJob jobs id' := by
  have hne' : ¬ (id = id') := fun hc => hne hc.symm
  unfold lookupJob setJob
  by_cases h : jobs.any (fun p => p.1 = id) = true
  · rw [if_pos h]
    congr 1
    clear h
    induction jobs with
    | nil => rfl
    | cons p rest ih =>
      by_cases hp : p.1 = id
      · have hp' : ¬ (p.1 = id') := by rw [hp]; exact hne'
        simp only [List.map_cons, if_pos hp]
        rw [List.find?_cons_of_neg _ (by simpa using hne'),
            List.find?_cons_of_neg _ (by simpa using hp')]
        exact ih
      · simp only [List.map_cons, if_neg hp]
        by_cases hq : p.1 = id'
        · rw [List.find?_cons_of_pos _ (by simpa using hq),
              List.find?_cons_of_pos _ (by simpa using hq)]
        · rw [List.find?_cons_of_neg _ (by simpa using hq),
              List.find?_cons_of_neg _ (by simpa using hq)]
          exact ih
  · rw [if_neg h]
    rw [List.find?_append]
    cases hfind : jobs.find? (fun p => p.1 = id') with
    | some v => rfl
    | none =>
      simp only [Option.none_or]
      rw [List.find?_cons_of_neg _ (by simpa using hne')]
      rfl

/-! ## Claim theorems -/

/-- C6: for every `start_job` request whose `input_data` lacks the key
`"question"`, the operation fails with a 400 validation error, the state is
unchanged (no job record stored, no payment instance registered), and the
event trace is empty — in particular no payment request is created: the
failure is raised before the payment-request call and before the job is
inserted into the store. -/
theorem startJob_missing_question_rejected_before_effects
    (s : AppState) (newJobId : String) (req : StartJobRequest)
    (cpr : CreatePaymentOutcome) (monitorOk : Bool)
    (h : hasKeyStr req.input_data "question" = false) :
    startJob s newJobId req cpr monitorOk = (s, [], .error 400) := by
  unfold startJob
  rw [if_pos]
  rw [h]

/-- Witness for C6 at a concrete request lacking `"question"`. -/
theorem startJob_missing_question_rejected_before_effects_witness :
    hasKeyStr [("topic", "France")] "question" = false ∧
    startJob ⟨[], []⟩ "job1" ⟨"p1", [("topic", "France")]⟩
        (.ok ⟨"bc1", "t1", "t2", "t3", "t4"⟩) true
      = (⟨[], []⟩, [], .error 400) :=
  ⟨by decide,
   startJob_missing_question_rejected_before_effects _ _ _ _ _ (by decide)⟩

/-- C4: evaluation at the failing input.  With two stored records and
`k = 3 > 2`, faiss pads its label row with `-1`; the guard
`i < len(self.chunks)` keeps the padding, and Python's negative indexing
resolves `chunks[-1]` to the last fragment, so `search` returns the last
record twice instead of returning each stored record exactly once. -/
theorem search_k_exceeding_count_duplicates_last_record :
    (VectorStore.mk 2 [[0, 0], [10, 10]] ["A", "B"]).search [0, 0] 3
      = .ok ["A", "B", "B"] ∧
    (["A", "B", "B"].count "B" = 2) :=
  ⟨rfl, by decide⟩

/-- C7: for every known job id the status query returns a response carrying
the job id, job status, payment status and result — it never raises; and when
a payment-status refresh is attempted (an instance is registered) and the
provider call fails, the response's `payment_status` is degraded to
`"unknown"` (on `ValueError`) or `"error"` (on any other exception) while the
read as a whole still succeeds. -/
theorem getStatus_known_job_always_responds (s : AppState) (jobId : String)
    (chk : CheckOutcome) (job : Job)
    (h : lookupJob s.jobs jobId = some job) :
    (∃ resp : StatusResponse, (getStatus s jobId chk).2 = .ok resp ∧
        resp.job_id = jobId ∧ resp.status = job.status ∧
        resp.result = job.result) ∧
    (s.payment_instances.contains jobId = true →
      (∀ m, chk = .valueError m →
        (getStatus s jobId chk).2
          = .ok ⟨jobId, job.status, some "unknown", job.result⟩) ∧
      (∀ m, chk = .otherError m →
        (getStatus s jobId chk).2
          = .ok ⟨jobId, job.status, some "error", job.result⟩)) := by
  unfold getStatus
  rw [h]
  dsimp only
  by_cases hinst : s.payment_instances.contains jobId = true
  · rw [if_pos hinst]
    cases chk with
    | ok st =>
      exact ⟨⟨_, ⟨rfl, rfl, rfl, rfl⟩⟩,
        fun _ => ⟨fun m hm => (nomatch hm), fun m hm => (nomatch hm)⟩⟩
    | valueError m =>
      exact ⟨⟨_, ⟨rfl, rfl, rfl, rfl⟩⟩,
        fun _ => ⟨fun m hm => (by cases hm; rfl), fun m hm => (nomatch hm)⟩⟩
    | otherError m =>
      exact ⟨⟨_, ⟨rfl, rfl, rfl, rfl⟩⟩,
        fun _ => ⟨fun m hm => (nomatch hm), fun m hm => (by cases hm; rfl)⟩⟩
  · rw [if_neg hinst]
    exact ⟨⟨_, ⟨rfl, rfl, rfl, rfl⟩⟩, fun hc => absurd hc hinst⟩

/-- Witness for C7: a known job whose payment-status refresh raises a
non-`ValueError` exception still gets a full response, with
`payment_status = "error"`. -/
theorem getStatus_known_job_always_responds_witness :
    lookupJob dupState.jobs "job1" = some dupJob ∧
    (∃ resp : StatusResponse,
        (getStatus dupState "job1" (.otherError "boom")).2 = .ok resp ∧
        resp.job_id = "job1" ∧ resp.status = dupJob.status ∧
        resp.result = dupJob.result) ∧
    (dupState.payment_instances.contains "job1" = true →
      (∀ m, (CheckOutcome.otherError "boom") = .valueError m →
        (getStatus dupState "job1" (.otherError "boom")).2
          = .ok ⟨"job1", dupJob.status, some "unknown", dupJob.result⟩) ∧
      (∀ m, (CheckOutcome.otherError "boom") = .otherError m →
        (getStatus dupState "job1" (.otherError "boom")).2
          = .ok ⟨"job1", dupJob.status, some "error", dupJob.result⟩)) :=
  ⟨by decide,
   getStatus_known_job_always_responds dupState "job1" (.otherError "boom")
     dupJob (by decide)⟩

/-- C9: the status query is not read-only.  For a known job with an active
payment instance, `get_status` overwrites the stored record's
`payment_status` (with the provider-reported status, or `"unknown"`/`"error"`
on failure) while leaving every other field of that record, every other job
record, and the set of payment instances unchanged. -/
theorem getStatus_writes_payment_status_only (s : AppState) (jobId : String)
    (chk : CheckOutcome) (job : Job)
    (h : lookupJob s.jobs jobId = some job)
    (hinst : s.payment_instances.contains jobId = true) :
    ∃ job', lookupJob (getStatus s jobId chk).1.jobs jobId = some job' ∧
      job'.payment_status = (match chk with
        | .ok st => st
        | .valueError _ => some "unknown"
        | .otherError _ => some "error") ∧
      job'.status = job.status ∧
      job'.input_data = job.input_data ∧
      job'.result = job.result ∧
      job'.error = job.error ∧
      job'.blockchain_identifier = job.blockchain_identifier ∧
      job'.identifier_from_purchaser = job.identifier_from_purchaser ∧
      (∀ other, other ≠ jobId →
        lookupJob (getStatus s jobId chk).1.jobs other
          = lookupJob s.jobs other) ∧
      (getStatus s jobId chk).1.payment_instances = s.payment_instances := by
  unfold getStatus
  rw [h]
  dsimp only
  rw [if_pos hinst]
  cases chk with
  | ok st =>
    exact ⟨_, lookupJob_setJob_self _ _ _, rfl, rfl, rfl, rfl, rfl, rfl, rfl,
      fun other ho => lookupJob_setJob_ne _ _ _ _ ho, rfl⟩
  | valueError m =>
    exact ⟨_, lookupJob_setJob_self _ _ _, rfl, rfl, rfl, rfl, rfl, rfl, rfl,
      fun other ho => lookupJob_setJob_ne _ _ _ _ ho, rfl⟩
  | otherError m =>
    exact ⟨_, lookupJob_setJob_self _ _ _, rfl, rfl, rfl, rfl, rfl, rfl, rfl,
      fun other ho => lookupJob_setJob_ne _ _ _ _ ho, rfl⟩

/-- Witness for C9 at a concrete state: the refresh failure overwrites only
`payment_status`. -/
theorem getStatus_writes_payment_status_only_witness :
    lookupJob dupState.jobs "job1" = some dupJob ∧
    dupState.payment_instances.contains "job1" = true ∧
    (∃ job', lookupJob (getStatus dupState "job1" (.otherError "boom")).1.jobs
          "job1" = some job' ∧
      job'.payment_status = some "error" ∧
      job'.status = dupJob.status ∧
      job'.input_data = dupJob.input_data ∧
      job'.result = dupJob.result ∧
      job'.error = dupJob.error ∧
      job'.blockchain_identifier = dupJob.blockchain_identifier ∧
      job'.identifier_from_purchaser = dupJob.identifier_from_purchaser ∧
      (∀ other, other ≠ "job1" →
        lookupJob (getStatus dupState "job1" (.otherError "boom")).1.jobs other
          = lookupJob dupState.jobs other) ∧
      (getStatus dupState "job1" (.otherError "boom")).1.payment_instances
        = dupState.payment_instances) :=
  ⟨by decide, by decide,
   getStatus_writes_payment_status_only dupState "job1" (.otherError "boom")
     dupJob (by decide) (by decide)⟩

/-- C10: after every sequence of `add` calls starting from the fresh store,
the number of indexed vectors equals the number of stored fragments; and each
successful `add` appends exactly one vector and exactly one fragment, at the
same (final) position, removing and reordering nothing. -/
theorem add_keeps_vectors_chunks_in_step :
    (∀ ops, (runAdds VectorStore.init ops).vectors.length
        = (runAdds VectorStore.init ops).chunks.length) ∧
    (∀ (s : VectorStore) emb chunk s', s.add emb chunk = .ok s' →
        s'.vectors = s.vectors ++ [emb] ∧ s'.chunks = s.chunks ++ [chunk]) := by
  constructor
  · have step : ∀ (s : VectorStore) op, s.vectors.length = s.chunks.length →
        (applyAdd s op).vectors.length = (applyAdd s op).chunks.length := by
      intro s op hlen
      unfold applyAdd VectorStore.add
      by_cases hd : op.1.length = s.dim
      · rw [if_pos hd]
        simp [hlen]
      · rw [if_neg hd]
        exact hlen
    intro ops
    suffices h : ∀ ops (s : VectorStore),
        s.vectors.length = s.chunks.length →
        (runAdds s ops).vectors.length = (runAdds s ops).chunks.length from
      h ops VectorStore.init rfl
    intro ops
    induction ops with
    | nil => intro s hs; exact hs
    | cons op rest ih =>
      intro s hs
      exact ih (applyAdd s op) (step s op hs)
  · intro s emb chunk s' h
    unfold VectorStore.add at h
    by_cases hd : emb.length = s.dim
    · rw [if_pos hd] at h
      cases h
      exact ⟨rfl, rfl⟩
    · rw [if_neg hd] at h
      cases h

/-- Witness for C10: a successful concrete `add` appends one vector and one
fragment. -/
theorem add_keeps_vectors_chunks_in_step_witness :
    (VectorStore.mk 2 [[0, 0]] ["A"]).add [1, 2] "B"
        = .ok (VectorStore.mk 2 [[0, 0], [1, 2]] ["A", "B"]) ∧
    (VectorStore.mk 2 [[0, 0], [1, 2]] ["A", "B"]).vectors
        = [[0, 0]] ++ [[1, 2]] ∧
    (VectorStore.mk 2 [[0, 0], [1, 2]] ["A", "B"]).chunks = ["A"] ++ ["B"] :=
  ⟨rfl,
   (add_keeps_vectors_chunks_in_step.2 (VectorStore.mk 2 [[0, 0]] ["A"])
     [1, 2] "B" _ rfl).1,
   (add_keeps_vectors_chunks_in_step.2 (VectorStore.mk 2 [[0, 0]] ["A"])
     [1, 2] "B" _ rfl).2⟩

/-! ## Helper lemmas on traces and the payment-status handler -/

theorem countComplete_append (j : String) (a b : List Event) :
    countComplete j (a ++ b) = countComplete j a + countComplete j b := by
  simp [countComplete, List.filter_append]

theorem statusWrites_append (j : String) (a b : List Event) :
    statusWrites j (a ++ b) = statusWrites j a ++ statusWrites j b := by
  simp [statusWrites, List.filterMap_append]

theorem contains_removeInstance (l : List String) (id : String) :
    (removeInstance l id).contains id = false := by
  simp [removeInstance, List.contains_eq_any_beq]

theorem not_mem_removeInstance (l : List String) (id : String) :
    id ∉ removeInstance l id := by
  simp [removeInstance]

/-- Number of still-registered payment instances for a job (0 or 1),
the budget consumed by a `complete_payment` call. -/
def instBudget (s : AppState) (jobId : String) : Nat :=
  if s.payment_instances.contains jobId then 1 else 0

theorem instBudget_le_one (s : AppState) (jobId : String) :
    instBudget s jobId ≤ 1 := by
  unfold instBudget
  split <;> omega

theorem hpsExcept_countComplete (s : AppState) (jobId msg : String)
    (evs : List Event) :
    countComplete jobId (hpsExcept s jobId msg evs).events
      = countComplete jobId evs := by
  unfold hpsExcept
  cases lookupJob s.jobs jobId with
  | none => rfl
  | some j =>
    dsimp only
    split
    · simp [countComplete_append, countComplete]
    · simp [countComplete_append, countComplete]

theorem hpsExcept_budget_le (s : AppState) (jobId msg : String)
    (evs : List Event) :
    instBudget (hpsExcept s jobId msg evs).state jobId ≤ instBudget s jobId := by
  unfold hpsExcept
  cases lookupJob s.jobs jobId with
  | none => exact le_refl _
  | some j =>
    dsimp only
    split
    · simp [instBudget, not_mem_removeInstance]
    · exact le_refl _

theorem hpsExcept_budget_zero (s : AppState) (jobId msg : String)
    (evs : List Event) (j0 : Job) (h : lookupJob s.jobs jobId = some j0)
    (hc : s.payment_instances.contains jobId = true) :
    instBudget (hpsExcept s jobId msg evs).state jobId = 0 := by
  unfold hpsExcept
  rw [h]
  dsimp only
  rw [if_pos hc]
  simp [instBudget, not_mem_removeInstance]

theorem hpsExcept_spec (s : AppState) (jobId msg : String) (evs : List Event)
    (j0 : Job) (h : lookupJob s.jobs jobId = some j0) :
    lookupJob (hpsExcept s jobId msg evs).state.jobs jobId
      = some { j0 with status := "failed", error := some msg } ∧
    statusWrites jobId (hpsExcept s jobId msg evs).events
      = statusWrites jobId evs ++ ["failed"] := by
  unfold hpsExcept
  rw [h]
  dsimp only
  split
  · exact ⟨lookupJob_setJob_self _ _ _, by simp [statusWrites_append, statusWrites]⟩
  · exact ⟨lookupJob_setJob_self _ _ _, by simp [statusWrites_append, statusWrites]⟩

theorem hps_complete_budget (s : AppState) (jobId paymentId : String)
    (t : TaskOutcome) (c : CompleteOutcome) :
    countComplete jobId
        (handlePaymentStatus s jobId paymentId t c).events
      + instBudget (handlePaymentStatus s jobId paymentId t c).state jobId
      ≤ instBudget s jobId := by
  have hev0 : countComplete jobId
      [Event.statusSet jobId "running", Event.taskRun jobId] = 0 := by
    simp [countComplete]
  unfold handlePaymentStatus
  cases hl : lookupJob s.jobs jobId with
  | none =>
    dsimp only
    simp [countComplete]
  | some job0 =>
    dsimp only
    cases t with
    | err msg =>
      dsimp only
      rw [hpsExcept_countComplete, hev0]
      have h2 := hpsExcept_budget_le
        { s with jobs := setJob s.jobs jobId { job0 with status := "running" } }
        jobId msg [Event.statusSet jobId "running", Event.taskRun jobId]
      have h4 : instBudget { s with
          jobs := setJob s.jobs jobId { job0 with status := "running" } } jobId
          = instBudget s jobId := rfl
      rw [h4] at h2
      omega
    | ok res =>
      dsimp only
      by_cases hc : s.payment_instances.contains jobId = true
      · rw [if_pos hc]
        have hBudget1 : instBudget s jobId = 1 := by
          unfold instBudget
          rw [if_pos hc]
        cases c with
        | err msg =>
          dsimp only
          rw [hpsExcept_countComplete]
          have h3 : countComplete jobId
              ([Event.statusSet jobId "running", Event.taskRun jobId]
                ++ [Event.completePayment jobId paymentId]) = 1 := by
            simp [countComplete]
          rw [h3]
          have h2 := hpsExcept_budget_zero
            { s with
              jobs := setJob s.jobs jobId { job0 with status := "running" } }
            jobId msg ([Event.statusSet jobId "running", Event.taskRun jobId]
              ++ [Event.completePayment jobId paymentId])
            { job0 with status := "running" }
            (lookupJob_setJob_self _ _ _) hc
          rw [h2, hBudget1]
        | ok =>
          dsimp only
          have h3 : countComplete jobId
              ([Event.statusSet jobId "running", Event.taskRun jobId]
                ++ [Event.completePayment jobId paymentId]
                ++ [Event.statusSet jobId "completed",
                    Event.stopMonitoring jobId]) = 1 := by
            simp [countComplete]
          rw [h3, hBudget1]
          simp [instBudget, not_mem_removeInstance]
      · rw [if_neg hc]
        rw [hpsExcept_countComplete, hev0]
        have h2 := hpsExcept_budget_le
          { s with jobs := setJob s.jobs jobId { job0 with status := "running" } }
          jobId ("KeyError: " ++ jobId)
          [Event.statusSet jobId "running", Event.taskRun jobId]
        have h4 : instBudget { s with
            jobs := setJob s.jobs jobId { job0 with status := "running" } } jobId
            = instBudget s jobId := rfl
        rw [h4] at h2
        omega

theorem runHandles_complete_budget (jobId : String) :
    ∀ (evts : List ConfirmEvent) (s : AppState),
      countComplete jobId (runHandles s jobId evts).2
        + instBudget (runHandles s jobId evts).1 jobId
      ≤ instBudget s jobId := by
  intro evts
  induction evts with
  | nil =>
    intro s
    simp [runHandles, countComplete]
  | cons e rest ih =>
    intro s
    unfold runHandles
    dsimp only
    rw [countComplete_append]
    have hstep := hps_complete_budget s jobId e.paymentId e.task e.comp
    have htail := ih (handlePaymentStatus s jobId e.paymentId e.task e.comp).state
    omega

/-- C1 (amended): processing a duplicate confirmation event after the first
has reached a terminal outcome does re-run the RAG task (see the
counterexample), but the payment completion operation is invoked at most once
per job: both terminal paths of `handle_payment_status` delete the job's
payment instance, and the completion call is reachable only while that
instance is registered, so across any sequence of confirmation events for a
job the `complete_payment` call happens at most once. -/
theorem complete_payment_at_most_once (s : AppState) (jobId : String)
    (evts : List ConfirmEvent) :
    countComplete jobId (runHandles s jobId evts).2 ≤ 1 := by
  have h := runHandles_complete_budget jobId evts s
  have hb := instBudget_le_one s jobId
  omega

/-- C1 counterexample: after a first confirmation drove the job to
`completed`, processing a duplicate confirmation for the same job runs the
RAG task again (one fresh `taskRun` event), contradicting the claim that a
duplicate confirmation does not re-run the task. -/
theorem duplicate_confirmation_reruns_task :
    (lookupJob dupRun1.state.jobs "job1").map Job.status = some "completed" ∧
    countTaskRun "job1" dupRun2.events = 1 := by
  constructor
  · rfl
  · rfl

theorem hps_outcome (s : AppState) (jobId paymentId : String)
    (t : TaskOutcome) (c : CompleteOutcome) (job0 : Job)
    (h : lookupJob s.jobs jobId = some job0) :
    (∃ res, t = TaskOutcome.ok res ∧
      lookupJob (handlePaymentStatus s jobId paymentId t c).state.jobs jobId
        = some { job0 with
                 status := "completed"
                 payment_status := some "completed"
                 result := some res } ∧
      statusWrites jobId (handlePaymentStatus s jobId paymentId t c).events
        = ["running", "completed"]) ∨
    (∃ msg,
      lookupJob (handlePaymentStatus s jobId paymentId t c).state.jobs jobId
        = some { job0 with status := "failed", error := some msg } ∧
      statusWrites jobId (handlePaymentStatus s jobId paymentId t c).events
        = ["running", "failed"]) := by
  have hw1 : statusWrites jobId
      [Event.statusSet jobId "running", Event.taskRun jobId] = ["running"] := by
    simp [statusWrites]
  unfold handlePaymentStatus
  rw [h]
  dsimp only
  cases t with
  | err msg =>
    dsimp only
    right
    refine ⟨msg, ?_, ?_⟩
    · exact (hpsExcept_spec _ jobId msg _ { job0 with status := "running" }
        (lookupJob_setJob_self _ _ _)).1
    · rw [(hpsExcept_spec _ jobId msg _ { job0 with status := "running" }
        (lookupJob_setJob_self _ _ _)).2, hw1]
      rfl
  | ok res =>
    dsimp only
    by_cases hc : s.payment_instances.contains jobId = true
    · rw [if_pos hc]
      cases c with
      | err msg =>
        dsimp only
        right
        refine ⟨msg, ?_, ?_⟩
        · exact (hpsExcept_spec _ jobId msg _ { job0 with status := "running" }
            (lookupJob_setJob_self _ _ _)).1
        · rw [(hpsExcept_spec _ jobId msg _ { job0 with status := "running" }
            (lookupJob_setJob_self _ _ _)).2]
          simp [statusWrites_append, statusWrites]
      | ok =>
        dsimp only
        left
        refine ⟨res, rfl, ?_, ?_⟩
        · exact lookupJob_setJob_self _ _ _
        · simp [statusWrites_append, statusWrites]
    · rw [if_neg hc]
      right
      refine ⟨"KeyError: " ++ jobId, ?_, ?_⟩
      · exact (hpsExcept_spec _ jobId ("KeyError: " ++ jobId) _
          { job0 with status := "running" } (lookupJob_setJob_self _ _ _)).1
      · rw [(hpsExcept_spec _ jobId ("KeyError: " ++ jobId) _
          { job0 with status := "running" } (lookupJob_setJob_self _ _ _)).2, hw1]
        rfl

/-- C2 counterexample: the first confirmation leaves the job in the terminal
status `completed`; processing a duplicate confirmation changes its status
again (through `running` to `failed`), so a terminal job's status is not
frozen and the illegal transition is not rejected. -/
theorem completed_job_status_changes_again :
    (lookupJob dupRun1.state.jobs "job1").map Job.status = some "completed" ∧
    (lookupJob dupRun2.state.jobs "job1").map Job.status = some "failed" ∧
    statusWrites "job1" dupRun2.events = ["running", "failed"] :=
  ⟨rfl, rfl, rfl⟩

/-- C2 (amended): a single confirmation callback on a stored job writes the
status first to `"running"` and then exactly once to a terminal status
(`"completed"` or `"failed"`), in this order, and leaves the job terminal —
the legal order holds for one callback per job.  The code contains no
transition-order check, however, so a duplicate callback moves even a
terminal job back through `"running"` (see the counterexample). -/
theorem single_confirmation_follows_status_order (s : AppState)
    (jobId paymentId : String) (t : TaskOutcome) (c : CompleteOutcome)
    (job0 : Job) (h : lookupJob s.jobs jobId = some job0) :
    (statusWrites jobId (handlePaymentStatus s jobId paymentId t c).events
        = ["running", "completed"] ∨
     statusWrites jobId (handlePaymentStatus s jobId paymentId t c).events
        = ["running", "failed"]) ∧
    (∃ job', lookupJob (handlePaymentStatus s jobId paymentId t c).state.jobs
          jobId = some job' ∧
      (job'.status = "completed" ∨ job'.status = "failed")) := by
  rcases hps_outcome s jobId paymentId t c job0 h with
    ⟨res, ht, hlook, hw⟩ | ⟨msg, hlook, hw⟩
  · exact ⟨Or.inl hw, ⟨_, hlook, Or.inl rfl⟩⟩
  · exact ⟨Or.inr hw, ⟨_, hlook, Or.inr rfl⟩⟩

/-- Witness for C2 (amended) at the concrete first confirmation: the writes
are `running` then `completed` and the job ends terminal. -/
theorem single_confirmation_follows_status_order_witness :
    lookupJob dupState.jobs "job1" = some dupJob ∧
    ((statusWrites "job1" dupRun1.events = ["running", "completed"] ∨
      statusWrites "job1" dupRun1.events = ["running", "failed"]) ∧
     (∃ job', lookupJob dupRun1.state.jobs "job1" = some job' ∧
       (job'.status = "completed" ∨ job'.status = "failed"))) :=
  ⟨by decide,
   single_confirmation_follows_status_order dupState "job1" "bc1"
     (.ok "res") .ok dupJob (by decide)⟩

/-- C3 counterexample: after the duplicate confirmation the job has left
`running` (status `"failed"`) with BOTH `result` (from the first run) and
`error` (from the duplicate run's failure) set, contradicting the claimed
mutual exclusion. -/
theorem duplicate_confirmation_sets_result_and_error :
    (lookupJob dupRun2.state.jobs "job1").map
        (fun j => (j.status, j.result.isSome, j.error.isSome))
      = some ("failed", true, true) :=
  rfl

/-- C3 (amended): starting from a job whose `result` and `error` are both
unset (as `start_job` stores it), a single callback invocation establishes
the claimed exclusion — `completed` implies `result` set and `error` unset,
`failed` implies `error` set and `result` unset.  Under duplicate
invocations the exclusion is violated (see the counterexample), because the
failure path never clears `result`. -/
theorem single_confirmation_result_error_exclusive (s : AppState)
    (jobId paymentId : String) (t : TaskOutcome) (c : CompleteOutcome)
    (job0 : Job) (h : lookupJob s.jobs jobId = some job0)
    (hres : job0.result = none) (herr : job0.error = none) :
    ∀ job', lookupJob (handlePaymentStatus s jobId paymentId t c).state.jobs
        jobId = some job' →
      (job'.status = "completed" →
        job'.result.isSome = true ∧ job'.error = none) ∧
      (job'.status = "failed" →
        job'.error.isSome = true ∧ job'.result = none) := by
  intro job' hj
  rcases hps_outcome s jobId paymentId t c job0 h with
    ⟨res, ht, hlook, hw⟩ | ⟨msg, hlook, hw⟩
  · rw [hlook] at hj
    cases hj
    constructor
    · intro _
      exact ⟨rfl, herr⟩
    · intro hfail
      exact absurd (show ("completed" : String) = "failed" from hfail)
        (by decide)
  · rw [hlook] at hj
    cases hj
    constructor
    · intro hcomp
      exact absurd (show ("failed" : String) = "completed" from hcomp)
        (by decide)
    · intro _
      exact ⟨rfl, hres⟩

/-- Witness for C3 (amended) at the concrete first confirmation. -/
theorem single_confirmation_result_error_exclusive_witness :
    lookupJob dupState.jobs "job1" = some dupJob ∧
    dupJob.result = none ∧ dupJob.error = none ∧
    (∀ job', lookupJob dupRun1.state.jobs "job1" = some job' →
      (job'.status = "completed" →
        job'.result.isSome = true ∧ job'.error = none) ∧
      (job'.status = "failed" →
        job'.error.isSome = true ∧ job'.result = none)) :=
  ⟨by decide, rfl, rfl,
   single_confirmation_result_error_exclusive dupState "job1" "bc1"
     (.ok "res") .ok dupJob (by decide) rfl rfl⟩

/-- C5 counterexample: with records `[[10,10],[0,0]]` (distances 200 and 0
from the query `[0,0]`) and `k = 3 > 2`, `search` returns the fragments
`["near", "far", "near"]` whose distances `[0, 200, 0]` are not
non-decreasing — the `-1` padding repeats the last-inserted record at the end
regardless of its distance, so the returned sequence is not sorted. -/
theorem search_result_not_sorted_by_distance :
    (VectorStore.mk 2 [[10, 10], [0, 0]] ["far", "near"]).search [0, 0] 3
      = .ok ["near", "far", "near"] ∧
    resultDistances (VectorStore.mk 2 [[10, 10], [0, 0]] ["far", "near"])
      [0, 0] 3 = [0, 200, 0] ∧
    ¬ List.Chain' (fun a b => a ≤ b) ([0, 200, 0] : List Int) :=
  ⟨rfl, rfl, by simp [List.chain'_cons]⟩

/-! ## Helper lemmas for the search ordering -/

instance faissRelTotal (vectors : List (List Int)) (q : List Int) :
    IsTotal Nat (faissRel vectors q) := by
  constructor
  intro i j
  unfold faissRel
  rcases lt_trichotomy (sqDist q (vectors.getD i []))
      (sqDist q (vectors.getD j [])) with h | h | h
  · exact Or.inl (Or.inl h)
  · rcases Nat.le_total i j with hij | hij
    · exact Or.inl (Or.inr ⟨h, hij⟩)
    · exact Or.inr (Or.inr ⟨h.symm, hij⟩)
  · exact Or.inr (Or.inl h)

instance faissRelTrans (vectors : List (List Int)) (q : List Int) :
    IsTrans Nat (faissRel vectors q) := by
  constructor
  intro a b c hab hbc
  unfold faissRel at *
  rcases hab with h1 | ⟨h1, h1'⟩ <;> rcases hbc with h2 | ⟨h2, h2'⟩
  · exact Or.inl (lt_trans h1 h2)
  · exact Or.inl (h2 ▸ h1)
  · exact Or.inl (h1 ▸ h2)
  · exact Or.inr ⟨h1.trans h2, le_trans h1' h2'⟩

theorem rankedIndices_perm (vectors : List (List Int)) (q : List Int) :
    (rankedIndices vectors q).Perm (List.range vectors.length) :=
  List.perm_insertionSort _ _

theorem rankedIndices_length (vectors : List (List Int)) (q : List Int) :
    (rankedIndices vectors q).length = vectors.length := by
  rw [(rankedIndices_perm vectors q).length_eq, List.length_range]

theorem rankedIndices_mem (vectors : List (List Int)) (q : List Int)
    (i : Nat) (h : i ∈ rankedIndices vectors q) : i < vectors.length := by
  have := (rankedIndices_perm vectors q).mem_iff.mp h
  simpa using this

theorem rankedIndices_nodup (vectors : List (List Int)) (q : List Int) :
    (rankedIndices vectors q).Nodup :=
  ((rankedIndices_perm vectors q).symm).nodup (List.nodup_range _)

/-- The ranking is strictly sorted: ascending distance, ties broken by
strictly increasing insertion index. -/
theorem rankedIndices_pairwise (vectors : List (List Int)) (q : List Int) :
    (rankedIndices vectors q).Pairwise (fun i j =>
      sqDist q (vectors.getD i []) < sqDist q (vectors.getD j []) ∨
        (sqDist q (vectors.getD i []) = sqDist q (vectors.getD j [])
          ∧ i < j)) := by
  have hs : (rankedIndices vectors q).Pairwise (faissRel vectors q) :=
    List.sorted_insertionSort (faissRel vectors q) (List.range vectors.length)
  have hn : (rankedIndices vectors q).Pairwise (fun i j => i ≠ j) :=
    rankedIndices_nodup vectors q
  refine (hs.and hn).imp ?_
  intro a b hab
  rcases hab with ⟨hr | ⟨he, hle⟩, hne⟩
  · exact Or.inl hr
  · exact Or.inr ⟨he, lt_of_le_of_ne hle hne⟩

theorem sqDist_nonneg (u v : List Int) : 0 ≤ sqDist u v := by
  unfold sqDist
  apply List.sum_nonneg
  intro x hx
  rcases List.mem_map.mp hx with ⟨p, _, rfl⟩
  positivity

theorem pyGet_ofNat {α : Type} (l : List α) (d : α) (i : Nat)
    (h : i < l.length) : pyGet l (Int.ofNat i) = some (l.getD i d) := by
  unfold pyGet
  rw [if_pos (show (0 : Int) ≤ Int.ofNat i from Int.zero_le_ofNat i)]
  show l.get? i = some (l.getD i d)
  rw [List.get?_eq_getElem?, List.getElem?_eq_getElem h,
    List.getD_eq_getElem l d h]

theorem filterMap_eq_map_of_some {α β : Type} (f : α → Option β) (g : α → β)
    (l : List α) (h : ∀ a ∈ l, f a = some (g a)) : l.filterMap f = l.map g := by
  induction l with
  | nil => rfl
  | cons a rest ih =>
    rw [List.filterMap_cons, h a (List.mem_cons_self a rest), List.map_cons,
      ih (fun x hx => h x (List.mem_cons_of_mem a hx))]

/-- C5 (amended): when `k` does not exceed the number of stored records (so
faiss's `-1` padding never arises), a `search` on a non-empty index with a
query of the configured dimension returns exactly the fragments of the ranked
indices, which are sorted by non-decreasing squared L2 distance to the query
with ties broken by insertion order (earlier-inserted record first); and for
stored records `[v, w]` with the query at distance 0 from `v` and a nonzero
distance from `w`, the record `v` (index 0) ranks first.  For
`k` greater than the record count the ordering fails (see the
counterexample). -/
theorem search_sorted_when_k_le_count (s : VectorStore) (q : List Int)
    (k : Nat) (hlen : s.vectors.length = s.chunks.length)
    (hne : s.vectors.length ≠ 0) (hq : q.length = s.dim)
    (hk : k ≤ s.vectors.length) :
    s.search q k = .ok (((rankedIndices s.vectors q).take k).map
        (fun i => s.chunks.getD i "")) ∧
    ((rankedIndices s.vectors q).take k).Pairwise (fun i j =>
      sqDist q (s.vectors.getD i []) < sqDist q (s.vectors.getD j []) ∨
        (sqDist q (s.vectors.getD i []) = sqDist q (s.vectors.getD j [])
          ∧ i < j)) ∧
    (∀ v w, s.vectors = [v, w] → sqDist q v = 0 → sqDist q w ≠ 0 → 1 ≤ k →
      ((rankedIndices s.vectors q).take k).head? = some 0) := by
  have hmemk : ∀ i ∈ (rankedIndices s.vectors q).take k, i < s.chunks.length := by
    intro i hi
    have : i ∈ rankedIndices s.vectors q :=
      (List.take_sublist k _).mem hi
    rw [← hlen]
    exact rankedIndices_mem s.vectors q i this
  refine ⟨?_, ?_, ?_⟩
  · unfold VectorStore.search
    rw [if_neg hne, if_neg (show ¬ q.length ≠ s.dim from not_ne_iff.mpr hq)]
    have hA : faissIndices s.vectors q k
        = ((rankedIndices s.vectors q).take k).map Int.ofNat := by
      unfold faissIndices
      dsimp only
      have hl : ((rankedIndices s.vectors q).map Int.ofNat).length
          = s.vectors.length := by
        rw [List.length_map, rankedIndices_length]
      rw [hl]
      rw [show k - s.vectors.length = 0 from Nat.sub_eq_zero_of_le hk]
      rw [List.replicate_zero, List.append_nil, List.map_take]
    have hB : (((rankedIndices s.vectors q).take k).map Int.ofNat).filter
        (fun i => i < (s.chunks.length : Int))
        = ((rankedIndices s.vectors q).take k).map Int.ofNat := by
      rw [List.filter_eq_self]
      intro a ha
      rcases List.mem_map.mp ha with ⟨i, hi, rfl⟩
      refine decide_eq_true ?_
      rw [Int.ofNat_eq_natCast]
      exact_mod_cast hmemk i hi
    dsimp only
    rw [hA, hB, List.filterMap_map]
    congr 1
    apply filterMap_eq_map_of_some
    intro i hi
    exact pyGet_ofNat s.chunks "" i (hmemk i hi)
  · exact List.Pairwise.sublist (List.take_sublist k _)
      (rankedIndices_pairwise s.vectors q)
  · intro v w hvw h0 hw hk1
    rw [hvw] at *
    obtain ⟨a, b, hab⟩ := List.length_eq_two.mp (rankedIndices_length [v, w] q)
    have hpw := rankedIndices_pairwise [v, w] q
    rw [hab] at hpw
    have hrel := List.rel_of_pairwise_cons hpw (List.mem_singleton.mpr rfl)
    have hmema : a < 2 := by
      apply rankedIndices_mem [v, w] q
      rw [hab]
      exact List.mem_cons_self a [b]
    have hmemb : b < 2 := by
      apply rankedIndices_mem [v, w] q
      rw [hab]
      exact List.mem_cons_of_mem a (List.mem_singleton.mpr rfl)
    have hwpos : 0 < sqDist q w :=
      lt_of_le_of_ne (sqDist_nonneg q w) (Ne.symm hw)
    have ha0 : a = 0 := by
      by_contra hc
      have ha1 : a = 1 := by omega
      have hb0 : b = 0 := by
        have hnd := rankedIndices_nodup [v, w] q
        rw [hab] at hnd
        have : a ≠ b := by
          intro he
          exact (List.nodup_cons.mp hnd).1 (he ▸ List.mem_singleton.mpr rfl)
        omega
      rw [ha1, hb0] at hrel
      have hg1 : ([v, w] : List (List Int)).getD 1 [] = w := rfl
      have hg0 : ([v, w] : List (List Int)).getD 0 [] = v := rfl
      rw [hg1, hg0, h0] at hrel
      rcases hrel with hlt | ⟨heq, hik⟩
      · omega
      · omega
    obtain ⟨m, rfl⟩ : ∃ m, k = m + 1 := ⟨k - 1, by omega⟩
    rw [hab, ha0, List.take_succ_cons]
    rfl

/-- Witness for C5 (amended) on a concrete two-record store with `k = 2`. -/
theorem search_sorted_when_k_le_count_witness :
    (VectorStore.mk 2 [[0, 0], [3, 4]] ["v", "w"]).vectors.length
      = (VectorStore.mk 2 [[0, 0], [3, 4]] ["v", "w"]).chunks.length ∧
    (VectorStore.mk 2 [[0, 0], [3, 4]] ["v", "w"]).vectors.length ≠ 0 ∧
    ([0, 0] : List Int).length = (VectorStore.mk 2 [[0, 0], [3, 4]] ["v", "w"]).dim ∧
    2 ≤ (VectorStore.mk 2 [[0, 0], [3, 4]] ["v", "w"]).vectors.length ∧
    (VectorStore.mk 2 [[0, 0], [3, 4]] ["v", "w"]).search [0, 0] 2
      = .ok (((rankedIndices [[0, 0], [3, 4]] [0, 0]).take 2).map
          (fun i => (["v", "w"] : List String).getD i "")) :=
  ⟨rfl, by decide, rfl, by decide,
   (search_sorted_when_k_le_count (VectorStore.mk 2 [[0, 0], [3, 4]] ["v", "w"])
     [0, 0] 2 rfl (by decide) rfl (by decide)).1⟩

/-! ## Helper lemmas for the result post-processing -/

theorem digitChar_ne_newline (m : Nat) : digitChar m ≠ '\n' := by
  unfold digitChar
  split <;> decide

theorem hexDigitChar_ne_newline (m : Nat) : hexDigitChar m ≠ '\n' := by
  unfold hexDigitChar
  split <;> decide

theorem hex4_no_newline (v : Nat) : '\n' ∉ hex4 v := by
  unfold hex4
  intro hmem
  rcases List.mem_cons.mp hmem with h | h
  · exact hexDigitChar_ne_newline _ h.symm
  rcases List.mem_cons.mp h with h' | h'
  · exact hexDigitChar_ne_newline _ h'.symm
  rcases List.mem_cons.mp h' with h'' | h''
  · exact hexDigitChar_ne_newline _ h''.symm
  rcases List.mem_cons.mp h'' with h3 | h3
  · exact hexDigitChar_ne_newline _ h3.symm
  exact absurd h3 (List.not_mem_nil _)

theorem natRevDigits_no_newline (n : Nat) : '\n' ∉ natRevDigits n := by
  induction n using Nat.strong_induction_on with
  | _ n ih =>
    match n with
    | 0 =>
      rw [natRevDigits]
      exact List.not_mem_nil _
    | m + 1 =>
      rw [natRevDigits]
      intro hmem
      rcases List.mem_cons.mp hmem with h | h
      · exact digitChar_ne_newline _ h.symm
      · exact ih ((m + 1) / 10) (Nat.div_lt_self (Nat.succ_pos m) (by omega)) h

theorem natToDec_no_newline (n : Nat) : '\n' ∉ natToDec n := by
  unfold natToDec
  split
  · decide
  · intro hmem
    exact natRevDigits_no_newline n (List.mem_reverse.mp hmem)

theorem intToDec_no_newline (n : Int) : '\n' ∉ intToDec n := by
  unfold intToDec
  split
  · intro hmem
    rcases List.mem_cons.mp hmem with h | h
    · exact absurd h.symm (by decide)
    · exact natToDec_no_newline _ h
  · exact natToDec_no_newline _

theorem escapeChar_no_newline (c : Char) : '\n' ∉ escapeChar c := by
  unfold escapeChar
  split
  · decide
  · split
    · decide
    · split
      · decide
      · split
        · decide
        · split
          · decide
          · split
            · decide
            · split
              · decide
              · split
                · intro hmem
                  rcases List.mem_cons.mp hmem with h | h
                  · exact absurd h.symm (by decide)
                  · rcases List.mem_cons.mp h with h' | h'
                    · exact absurd h'.symm (by decide)
                    · exact hex4_no_newline _ h'
                · rename_i h1 h2 h3 h4 h5 h6 h7 h8
                  intro hmem
                  rcases List.mem_cons.mp hmem with h | h
                  · exact h3 h.symm
                  · exact absurd h (List.not_mem_nil _)

theorem dumpStringChars_no_newline (s : String) : '\n' ∉ dumpStringChars s := by
  unfold dumpStringChars
  intro hmem
  rcases List.mem_cons.mp hmem with h | h
  · exact absurd h.symm (by decide)
  · rcases List.mem_append.mp h with h' | h'
    · rcases List.mem_flatMap.mp h' with ⟨c, _, hc⟩
      exact escapeChar_no_newline c hc
    · rcases List.mem_cons.mp h' with h'' | h''
      · exact absurd h''.symm (by decide)
      · exact absurd h'' (List.not_mem_nil _)

mutual

theorem jsonDump_no_newline (j : Json) : '\n' ∉ j.dumpChars := by
  cases j with
  | null =>
    rw [Json.dumpChars]
    decide
  | bool b =>
    cases b <;> (rw [Json.dumpChars]; decide)
  | num n =>
    rw [Json.dumpChars]
    exact intToDec_no_newline n
  | str s =>
    rw [Json.dumpChars]
    exact dumpStringChars_no_newline s
  | arr xs =>
    rw [Json.dumpChars]
    intro hmem
    rcases List.mem_cons.mp hmem with h | h
    · exact absurd h.symm (by decide)
    · rcases List.mem_append.mp h with h' | h'
      · exact jsonListDump_no_newline xs h'
      · rcases List.mem_cons.mp h' with h'' | h''
        · exact absurd h''.symm (by decide)
        · exact absurd h'' (List.not_mem_nil _)
  | obj kvs =>
    rw [Json.dumpChars]
    intro hmem
    rcases List.mem_append.mp hmem with h | h
    · rcases List.mem_append.mp h with h' | h'
      · exact absurd h' (by decide)
      · exact jsonObjectDump_no_newline kvs h'
    · exact absurd h (by decide)

theorem jsonListDump_no_newline (xs : JsonList) : '\n' ∉ xs.dumpChars := by
  cases xs with
  | nil =>
    rw [JsonList.dumpChars]
    exact List.not_mem_nil _
  | cons j rest =>
    cases rest with
    | nil =>
      rw [JsonList.dumpChars]
      exact jsonDump_no_newline j
    | cons j2 rest2 =>
      rw [JsonList.dumpChars]
      intro hmem
      rcases List.mem_append.mp hmem with h | h
      · rcases List.mem_append.mp h with h' | h'
        · exact jsonDump_no_newline j h'
        · exact absurd h' (by decide)
      · exact jsonListDump_no_newline (JsonList.cons j2 rest2) h

theorem jsonObjectDump_no_newline (kvs : JsonObject) :
    '\n' ∉ kvs.dumpChars := by
  cases kvs with
  | nil =>
    rw [JsonObject.dumpChars]
    exact List.not_mem_nil _
  | cons key v rest =>
    cases rest with
    | nil =>
      rw [JsonObject.dumpChars]
      intro hmem
      rcases List.mem_append.mp hmem with h | h
      · rcases List.mem_append.mp h with h' | h'
        · exact dumpStringChars_no_newline key h'
        · exact absurd h' (by decide)
      · exact jsonDump_no_newline v h
    | cons key2 v2 rest2 =>
      rw [JsonObject.dumpChars]
      intro hmem
      rcases List.mem_append.mp hmem with h | h
      · rcases List.mem_append.mp h with h' | h'
        · rcases List.mem_append.mp h' with h2 | h2
          · rcases List.mem_append.mp h2 with h3 | h3
            · exact dumpStringChars_no_newline key h3
            · exact absurd h3 (by decide)
          · exact jsonDump_no_newline v h2
        · exact absurd h' (by decide)
      · exact jsonObjectDump_no_newline (JsonObject.cons key2 v2 rest2) h

end

theorem mem_replaceChar {x : Char} {cs : List Char} {c : Char} {r : List Char}
    (h : x ∈ replaceChar cs c r) : x ∈ r ∨ (x ∈ cs ∧ x ≠ c) := by
  unfold replaceChar at h
  rcases List.mem_flatMap.mp h with ⟨a, ha, hx⟩
  by_cases hac : a = c
  · rw [if_pos hac] at hx
    exact Or.inl hx
  · rw [if_neg hac] at hx
    rcases List.mem_cons.mp hx with h' | h'
    · exact Or.inr ⟨h' ▸ ha, h' ▸ hac⟩
    · exact absurd h' (List.not_mem_nil _)

theorem not_mem_replaceChar_self {cs : List Char} {c : Char} {r : List Char}
    (hr : c ∉ r) : c ∉ replaceChar cs c r := by
  intro hmem
  rcases mem_replaceChar hmem with h | ⟨_, hne⟩
  · exact hr h
  · exact hne rfl

theorem not_mem_replaceChar_of {x : Char} {cs : List Char} {c : Char}
    {r : List Char} (hcs : x ∉ cs) (hr : x ∉ r) :
    x ∉ replaceChar cs c r := by
  intro hmem
  rcases mem_replaceChar hmem with h | ⟨h, _⟩
  · exact hr h
  · exact hcs h

theorem pyWords_sound :
    ∀ (cs : List Char), ∀ w ∈ pyWords cs, ∀ x ∈ w,
      x ∈ cs ∧ pyIsSpace x = false := by
  have H : ∀ (n : Nat) (cs : List Char), cs.length ≤ n →
      ∀ w ∈ pyWords cs, ∀ x ∈ w, x ∈ cs ∧ pyIsSpace x = false := by
    intro n
    induction n with
    | zero =>
      intro cs hlen w hw x hx
      match cs with
      | [] => rw [pyWords] at hw; exact absurd hw (List.not_mem_nil _)
    | succ n ih =>
      intro cs hlen w hw x hx
      match cs with
      | [] => rw [pyWords] at hw; exact absurd hw (List.not_mem_nil _)
      | c :: cs' =>
        rw [pyWords] at hw
        by_cases hsp : pyIsSpace c = true
        · rw [if_pos hsp] at hw
          have hlen' : cs'.length ≤ n := by
            simp only [List.length_cons] at hlen
            omega
          rcases ih cs' hlen' w hw x hx with ⟨hmem, hns⟩
          exact ⟨List.mem_cons_of_mem c hmem, hns⟩
        · rw [if_neg hsp] at hw
          rcases List.mem_cons.mp hw with hweq | hwrest
          · subst hweq
            rcases List.mem_cons.mp hx with hxc | hxtail
            · subst hxc
              exact ⟨List.mem_cons_self _ _,
                Bool.eq_false_iff.mpr hsp⟩
            · have hx' : x ∈ cs' :=
                (List.takeWhile_sublist _).mem hxtail
              have hpred := List.mem_takeWhile_imp hxtail
              rw [Bool.not_eq_true'] at hpred
              exact ⟨List.mem_cons_of_mem c hx', hpred⟩
          · have hlen' : (cs'.dropWhile (fun ch => !pyIsSpace ch)).length ≤ n := by
              have := (List.dropWhile_sublist
                (fun ch => !pyIsSpace ch) (l := cs')).length_le
              simp only [List.length_cons] at hlen
              omega
            rcases ih _ hlen' w hwrest x hx with ⟨hmem, hns⟩
            have hx' : x ∈ cs' := (List.dropWhile_sublist _).mem hmem
            exact ⟨List.mem_cons_of_mem c hx', hns⟩
  intro cs
  exact H cs.length cs (le_refl _)

theorem mem_joinSpace {x : Char} :
    ∀ {ws : List (List Char)}, x ∈ joinSpace ws →
      x = ' ' ∨ ∃ w ∈ ws, x ∈ w := by
  intro ws
  induction ws with
  | nil =>
    intro h
    rw [joinSpace] at h
    exact absurd h (List.not_mem_nil _)
  | cons w rest ih =>
    intro h
    match rest with
    | [] =>
      rw [joinSpace] at h
      exact Or.inr ⟨w, List.mem_cons_self _ _, h⟩
    | w2 :: rest2 =>
      rw [joinSpace] at h
      rcases List.mem_append.mp h with h' | h'
      · exact Or.inr ⟨w, List.mem_cons_self _ _, h'⟩
      · rcases List.mem_cons.mp h' with h'' | h''
        · exact Or.inl h''
        · rcases ih h'' with hsp | ⟨w', hw', hx'⟩
          · exact Or.inl hsp
          · exact Or.inr ⟨w', List.mem_cons_of_mem w hw', hx'⟩

theorem sanitizeAnswer_mem (ans : List Char) {x : Char}
    (h : x ∈ sanitizeAnswer ans) :
    x = ' ' ∨
      (x ∈ replaceChar (replaceChar (replaceChar (replaceChar (replaceChar
          (replaceChar ans '\n' [' ']) '\r' [' ']) '*' []) '•' []) '-' [' '])
          '₹' " ruppees".data
        ∧ pyIsSpace x = false) := by
  unfold sanitizeAnswer at h
  rcases mem_joinSpace h with hsp | ⟨w, hw, hx⟩
  · exact Or.inl hsp
  · rcases pyWords_sound _ w hw x hx with ⟨hmem, hns⟩
    exact Or.inr ⟨hmem, hns⟩

/-- The sanitized fallback answer contains none of the characters the code
removes or replaces: no newlines or carriage returns, no bullet markers
`'*'`/`'•'`, and no rupee sign. -/
theorem sanitizeAnswer_banned_absent (ans : List Char) :
    '\n' ∉ sanitizeAnswer ans ∧ '\r' ∉ sanitizeAnswer ans ∧
    '*' ∉ sanitizeAnswer ans ∧ '•' ∉ sanitizeAnswer ans ∧
    '₹' ∉ sanitizeAnswer ans := by
  have hstar : '*' ∉ replaceChar (replaceChar (replaceChar (replaceChar
      (replaceChar (replaceChar ans '\n' [' ']) '\r' [' ']) '*' []) '•' [])
      '-' [' ']) '₹' " ruppees".data := by
    apply not_mem_replaceChar_of
    · apply not_mem_replaceChar_of
      · apply not_mem_replaceChar_of
        · exact not_mem_replaceChar_self (List.not_mem_nil _)
        · exact List.not_mem_nil _
      · decide
    · decide
  have hbullet : '•' ∉ replaceChar (replaceChar (replaceChar (replaceChar
      (replaceChar (replaceChar ans '\n' [' ']) '\r' [' ']) '*' []) '•' [])
      '-' [' ']) '₹' " ruppees".data := by
    apply not_mem_replaceChar_of
    · apply not_mem_replaceChar_of
      · exact not_mem_replaceChar_self (List.not_mem_nil _)
      · decide
    · decide
  have hrupee : '₹' ∉ replaceChar (replaceChar (replaceChar (replaceChar
      (replaceChar (replaceChar ans '\n' [' ']) '\r' [' ']) '*' []) '•' [])
      '-' [' ']) '₹' " ruppees".data :=
    not_mem_replaceChar_self (by decide)
  refine ⟨?_, ?_, ?_, ?_, ?_⟩
  · intro h
    rcases sanitizeAnswer_mem ans h with hsp | ⟨_, hns⟩
    · exact absurd hsp (by decide)
    · exact absurd hns (by decide)
  · intro h
    rcases sanitizeAnswer_mem ans h with hsp | ⟨_, hns⟩
    · exact absurd hsp (by decide)
    · exact absurd hns (by decide)
  · intro h
    rcases sanitizeAnswer_mem ans h with hsp | ⟨hmem, _⟩
    · exact absurd hsp (by decide)
    · exact hstar hmem
  · intro h
    rcases sanitizeAnswer_mem ans h with hsp | ⟨hmem, _⟩
    · exact absurd hsp (by decide)
    · exact hbullet hmem
  · intro h
    rcases sanitizeAnswer_mem ans h with hsp | ⟨hmem, _⟩
    · exact absurd hsp (by decide)
    · exact hrupee hmem

/-- C8: the result of `execute_rag_task` given the generation output — if the
output parsed as a JSON dict containing `"answer"`, that value is preferred
and re-serialized as-is; otherwise (parse failure or any other shape) the
output is sanitized — newlines and bullet markers removed, the rupee sign
replaced by a textual token, whitespace collapsed — and wrapped as
`{"answer": ...}`; in all cases the returned result string contains no
newline character. -/
theorem ragResult_prefers_json_and_has_no_newline (parsed : Option Json)
    (text : String) :
    (∀ j, parsed = some j → isDictWithAnswer j = true →
      ragResult parsed text = dumps j) ∧
    (∀ j, parsed = some j → isDictWithAnswer j = false →
      ragResult parsed text = ragFallback text) ∧
    (parsed = none → ragResult parsed text = ragFallback text) ∧
    ('\n' ∉ sanitizeAnswer text.data ∧ '\r' ∉ sanitizeAnswer text.data ∧
     '*' ∉ sanitizeAnswer text.data ∧ '•' ∉ sanitizeAnswer text.data ∧
     '₹' ∉ sanitizeAnswer text.data) ∧
    '\n' ∉ (ragResult parsed text).data := by
  refine ⟨?_, ?_, ?_, sanitizeAnswer_banned_absent text.data, ?_⟩
  · intro j hj hd
    subst hj
    unfold ragResult
    dsimp only
    rw [if_pos hd]
  · intro j hj hd
    subst hj
    unfold ragResult
    dsimp only
    rw [if_neg (by rw [hd]; exact Bool.false_ne_true)]
    rfl
  · intro h
    subst h
    rfl
  · cases parsed with
    | none => exact jsonDump_no_newline _
    | some j =>
      unfold ragResult
      dsimp only
      by_cases hd : isDictWithAnswer j = true
      · rw [if_pos hd]
        exact jsonDump_no_newline j
      · rw [if_neg hd]
        exact jsonDump_no_newline _

/-- Witness for C8: a generation output that already parses as
`{"answer": "Paris"}` is returned re-serialized, and a raw output containing
a newline yields a result with no newline. -/
theorem ragResult_prefers_json_and_has_no_newline_witness :
    isDictWithAnswer (Json.obj (.cons "answer" (.str "Paris") .nil)) = true ∧
    ragResult (some (Json.obj (.cons "answer" (.str "Paris") .nil)))
        "Paris\nis the capital"
      = dumps (Json.obj (.cons "answer" (.str "Paris") .nil)) ∧
    '\n' ∉ (ragResult none "Paris\nis the capital").data :=
  ⟨by decide,
   (ragResult_prefers_json_and_has_no_newline
     (some (Json.obj (.cons "answer" (.str "Paris") .nil)))
     "Paris\nis the capital").1 _ rfl (by decide),
   (ragResult_prefers_json_and_has_no_newline none "Paris\nis the capital").2.2.2.2⟩
